import Mathlib

/-!
Verification of the Cosmos retrieval-augmented search pipeline.

The development shallowly embeds the core of the repository:
* `prepare_texts_for_encoding` and its per-record body (text normalization,
  from cosmos_airtable_ingestion_script.py, lines 52-86);
* the per-call model loading of `embed_query` (query_pinecone_db.py, lines 28-41)
  and the per-batch loading of `generate_vectors`
  (cosmos_airtable_ingestion_script.py, lines 89-106);
* the create-if-absent index management of `insert_into_vector_db`
  (cosmos_airtable_ingestion_script.py, lines 122-139);
* the vector store itself (upsert, query, stats), which lives in the external
  Pinecone service and is therefore modelled from the specification;
* the HTTP search endpoint and the Gemini answer synthesis with its fallback
  (backend/backend.py, lines 61-97 and 130-178).

Machine floats of the source are modelled as rationals; only ordering and
equality of scores matter to the verified properties.  External calls
(embedding model, vector store, generative model) are passed in as explicit
function parameters, with fallible ones returning an `Except`.
-/

/-- Python `str.strip()`: drop leading and trailing whitespace.  Defined
structurally over the character list so that it evaluates by `rfl`/`decide`. -/
def pyStrip (s : String) : String :=
  ⟨((s.data.dropWhile Char.isWhitespace).reverse.dropWhile Char.isWhitespace).reverse⟩

/-- A Python value as it occurs in the `fields` mapping of an Airtable record:
strings, ints, floats (modelled as rationals), booleans, lists, nested
objects (attachments and similar), or `None`. -/
inductive PyValue where
  | pyStr (s : String)
  | pyInt (n : Int)
  | pyFloat (q : Rat)
  | pyBool (b : Bool)
  | pyList (l : List PyValue)
  | pyDict
  | pyNone

/-- Whether a Python value is a string (for the all-strings list check). -/
def PyValue.isStr : PyValue → Bool
  | .pyStr _ => true
  | _ => false

/-- The string payload of a string value (only used under `isStr`). -/
def PyValue.strVal : PyValue → String
  | .pyStr s => s
  | _ => ""

/-- Rendering of a value inside an f-string, mirroring Python `str()` on the
kinds of values the normalizer keeps (floats rendered as exact rationals). -/
def PyValue.render : PyValue → String
  | .pyStr s => s
  | .pyInt n => toString n
  | .pyFloat q => toString q
  | .pyBool b => if b then "True" else "False"
  | .pyList l => String.intercalate ", " (l.map PyValue.strVal)
  | .pyDict => ""
  | .pyNone => ""

/-- An Airtable record: a stable id plus its source-defined field mapping
(an insertion-ordered association list, as a Python dict is). -/
structure Record where
  id : String
  fields : List (String × PyValue)

/-- The body of the field loop of `prepare_texts_for_encoding`: a fragment
`"{field_name}: {value}"` for a scalar (`str`, `int`, `float` — and `bool`,
which Python treats as an `int`), a `", "`-joined fragment for a list whose
every element is a string, and nothing for any other value. -/
def fieldFragment (field_name : String) : PyValue → Option String
  | .pyStr s => some (field_name ++ ": " ++ s)
  | .pyInt n => some (field_name ++ ": " ++ toString n)
  | .pyFloat q => some (field_name ++ ": " ++ toString q)
  | .pyBool b => some (field_name ++ ": " ++ (if b then "True" else "False"))
  | .pyList l =>
      if l.all PyValue.isStr then
        some (field_name ++ ": " ++ String.intercalate ", " (l.map PyValue.strVal))
      else
        none
  | .pyDict => none
  | .pyNone => none

/-- The per-record body of `prepare_texts_for_encoding`: accumulate the
fragments of the eligible fields in order, join them with `". "`, strip. -/
def prepare_text (record : Record) : String :=
  let text_parts := record.fields.foldl
    (fun text_parts fv =>
      match fieldFragment fv.1 fv.2 with
      | some part => text_parts ++ [part]
      | none => text_parts) []
  pyStrip (String.intercalate ". " text_parts)

/-- `prepare_texts_for_encoding` of cosmos_airtable_ingestion_script.py:
one normalized text per input record, in order. -/
def prepare_texts_for_encoding (records : List Record) : List String :=
  records.foldl (fun prepared_texts record => prepared_texts ++ [prepare_text record]) []

/-- The field-selection rule as §4.1 of the specification words it: value is
a scalar (string/number/boolean). -/
def PyValue.isScalar : PyValue → Bool
  | .pyStr _ => true
  | .pyInt _ => true
  | .pyFloat _ => true
  | .pyBool _ => true
  | _ => false

/-- The field-selection rule as §4.1 of the specification words it: value is
a list whose every element is a string. -/
def PyValue.isStringList : PyValue → Bool
  | .pyList l => l.all PyValue.isStr
  | _ => false

/-- The normalizer as the specification words it: include a field only if its
value is a scalar or an all-strings list, emit `"{field_name}: {value}"`
(lists joined with `", "`), join included fragments with `". "`, strip. -/
def normalize_spec (record : Record) : String :=
  pyStrip (String.intercalate ". "
    (record.fields.filterMap (fun fv =>
      if fv.2.isScalar || fv.2.isStringList then
        some (fv.1 ++ ": " ++ fv.2.render)
      else
        none)))

/-- Process state of the embedding engine: how many times a
SentenceTransformer model instance has been constructed in this process. -/
structure EmbedState where
  loads : Nat

/-- `embed_query` of query_pinecone_db.py.  The body executes
`model = SentenceTransformer(EMBEDDING_MODEL_NAME)` — a fresh model
construction — and then encodes the single query with it.  The encoding
computation itself is passed in as `encode`. -/
def embed_query (encode : String → List Rat) (s : EmbedState) (query : String) :
    EmbedState × List Rat :=
  let s1 : EmbedState := ⟨s.loads + 1⟩
  (s1, encode query)

/-- `generate_vectors` of cosmos_airtable_ingestion_script.py: one model
construction, then a single batch `encode` call over all texts. -/
def generate_vectors (encodeBatch : List String → List (List Rat)) (s : EmbedState)
    (texts : List String) : EmbedState × List (List Rat) :=
  let s1 : EmbedState := ⟨s.loads + 1⟩
  (s1, encodeBatch texts)

/-- An index entry as persisted in the vector store: id, dense vector,
metadata (a string-to-string mapping). -/
structure Entry where
  id : String
  values : List Rat
  metadata : List (String × String)
deriving DecidableEq

/-- Modelled from the spec: the content of one namespace of the vector
store keeps at most one vector per id (§3, IndexEntry invariant), so it is
a keyed mapping; `keys` lists the ids that hold a vector, in arrival order. -/
@[ext]
structure NSContent where
  keys : List String
  val : String → Option Entry

/-- The content of a namespace nobody has written to. -/
def emptyNS : NSContent := ⟨[], fun _ => none⟩

/-- Modelled from the spec: upsert of a single entry replaces any existing
entry sharing an id within the namespace, otherwise stores a new one (§4.3). -/
def upsertEntry (c : NSContent) (e : Entry) : NSContent :=
  ⟨if e.id ∈ c.keys then c.keys else c.keys ++ [e.id],
   fun i => if i = e.id then some e else c.val i⟩

/-- Modelled from the spec: a batch upsert applies the single-entry upsert to
the whole batch in order. -/
def upsertBatch (c : NSContent) (batch : List Entry) : NSContent :=
  batch.foldl upsertEntry c

/-- A Pinecone index: its namespace partitions (by name, in creation order). -/
structure PineconeIndex where
  namespaces : List (String × NSContent)

/-- Looking a namespace up by name in the partition list. -/
def lookupNS : List (String × NSContent) → String → Option NSContent
  | [], _ => none
  | p :: t, ns => if p.1 = ns then some p.2 else lookupNS t ns

/-- Writing a namespace by name in the partition list: replace the first
occurrence, or append a new partition when the name is absent. -/
def setNSList : List (String × NSContent) → String → NSContent → List (String × NSContent)
  | [], ns, c => [(ns, c)]
  | p :: t, ns, c => if p.1 = ns then (ns, c) :: t else p :: setNSList t ns c

/-- Reading a namespace by name; an absent namespace reads as empty. -/
def getNamespace (idx : PineconeIndex) (ns : String) : NSContent :=
  (lookupNS idx.namespaces ns).getD emptyNS

/-- Writing a namespace by name, creating it when absent. -/
def setNamespace (idx : PineconeIndex) (ns : String) (c : NSContent) : PineconeIndex :=
  ⟨setNSList idx.namespaces ns c⟩

/-- Modelled from the spec: `upsert(handle, namespace, entries)` of §4.3,
the operation behind `dense_index.upsert(vectors=..., namespace=...)`. -/
def upsert (idx : PineconeIndex) (ns : String) (batch : List Entry) : PineconeIndex :=
  setNamespace idx ns (upsertBatch (getNamespace idx ns) batch)

/-- Modelled from the spec: `stats().total_vector_count` — one vector per
stored id per namespace. -/
def total_vector_count (idx : PineconeIndex) : Nat :=
  (idx.namespaces.map (fun p => p.2.keys.length)).sum

/-- The stored entries of a namespace, in arrival order. -/
def NSContent.entries (c : NSContent) : List Entry :=
  c.keys.filterMap c.val

/-- A query result: id, similarity score, metadata. -/
structure QueryResult where
  id : String
  score : Rat
  metadata : List (String × String)
deriving DecidableEq

/-- Results are ranked with the higher score first. -/
def byScoreDesc (a b : QueryResult) : Prop := b.score ≤ a.score

instance : DecidableRel byScoreDesc :=
  fun a b => inferInstanceAs (Decidable (b.score ≤ a.score))

instance : IsTotal QueryResult byScoreDesc := ⟨fun a b => le_total b.score a.score⟩

instance : IsTrans QueryResult byScoreDesc := ⟨fun _ _ _ h1 h2 => le_trans h2 h1⟩

/-- Modelled from the spec: `query(handle, namespace, vector, top_k, ...)` of
§4.3 — score every entry of the namespace with the fixed metric `sim`, rank
descending, return at most `top_k` results; an empty or absent namespace
yields the empty sequence. -/
def query_index (sim : List Rat → List Rat → Rat) (idx : PineconeIndex) (ns : String)
    (vector : List Rat) (top_k : Nat) : List QueryResult :=
  let scored := (getNamespace idx ns).entries.map
    (fun e => QueryResult.mk e.id (sim vector e.values) e.metadata)
  (List.insertionSort byScoreDesc scored).take top_k

/-- The name constant of the ingestion script and the query script. -/
def INDEX_NAME : String := "cosmos-airtable-index"

/-- The dimension/metric configuration of a named index in the vector store. -/
structure IndexSpec where
  dimension : Nat
  metric : String
deriving DecidableEq

/-- Modelled from the spec: the control plane of the vector store — which
named indexes exist, with which dimension and metric (§4.3). -/
structure VectorStore where
  indexes : List (String × IndexSpec)
deriving DecidableEq

/-- Modelled from the spec: `pc.has_index(name)` checks existence by name
only (§4.3). -/
def has_index (pc : VectorStore) (name : String) : Bool :=
  pc.indexes.any (fun p => p.1 == name)

/-- Modelled from the spec: `pc.create_index(...)` registers a new named
index with the requested dimension and metric. -/
def create_index (pc : VectorStore) (name : String) (dimension : Nat)
    (metric : String) : VectorStore :=
  ⟨pc.indexes ++ [(name, ⟨dimension, metric⟩)]⟩

/-- The index-management prefix of `insert_into_vector_db`
(cosmos_airtable_ingestion_script.py, lines 126-136): create the index with
dimension 384 and metric cosine exactly when `has_index` reports it absent. -/
def ensure_index (pc : VectorStore) : VectorStore :=
  if !has_index pc INDEX_NAME then
    create_index pc INDEX_NAME 384 "cosine"
  else
    pc

/-- The search request body of backend.py: `query: str` and
`top_k: int = 5` (the pydantic default; no further constraint is declared). -/
structure SearchRequest where
  query : String
  top_k : Int := 5

/-- The search result of backend.py: score, id, and a (non-optional)
metadata mapping. -/
structure SearchResult where
  score : Rat
  id : String
  metadata : List (String × String)
deriving DecidableEq

/-- The response body of the /search endpoint of backend.py. -/
structure SearchResponse where
  results : List SearchResult
  query : String
  total_results : Nat
  ai_response : String
deriving DecidableEq

/-- A FastAPI HTTPException: status code and detail message. -/
structure HTTPError where
  status_code : Nat
  detail : String
deriving DecidableEq

/-- A match as returned by the Pinecone client: its metadata may be `None`. -/
structure PMatch where
  id : String
  score : Rat
  metadata : Option (List (String × String))
deriving DecidableEq

/-- Python `dict.get(key, default)` on a string-to-string mapping. -/
def metaGet (md : List (String × String)) (key default : String) : String :=
  match md.find? (fun p => p.1 == key) with
  | some p => p.2
  | none => default

/-- Rendering of a score inside the prompt (the three-decimal float
formatting of the source is abstracted to exact rational text). -/
def scoreText (q : Rat) : String := toString q

/-- One context block of `generate_ai_response`, for the result at rank
`i + 1`. -/
def contextPart (i : Nat) (result : SearchResult) : String :=
  "Result " ++ toString (i + 1) ++ " (Score: " ++ scoreText result.score ++ "):\n"
    ++ metaGet result.metadata "searchable_text" "No text available" ++ "\n"

/-- The prompt `generate_ai_response` sends to Gemini: the query and, in rank
order, each result with its score and searchable text. -/
def buildPrompt (query : String) (search_results : List SearchResult) : String :=
  let context := String.intercalate "\n"
    ((search_results.enum).map (fun p => contextPart p.1 p.2))
  "\nYou are a helpful assistant that answers questions based on the provided search "
    ++ "results from a user information database.\n\nOriginal Query: " ++ query
    ++ "\n\nSearch Results:\n" ++ context
    ++ "\n\nPlease provide a comprehensive, human-readable answer to the original query "
    ++ "based on the search results above. \n- Be specific and cite relevant details "
    ++ "from the case studies\n- If the results don\x27t contain enough information to "
    ++ "fully answer the query, mention this\n- Keep the response informative but "
    ++ "concise\n- Use a professional, helpful tone\n\nAnswer:\n"

/-- The deterministic fallback string of `generate_ai_response`, reporting
the count of retrieved results. -/
def fallbackResponse (n : Nat) : String :=
  "I found " ++ toString n
    ++ " relevant results, but encountered an error generating a detailed response. "
    ++ "Please check the individual results below."

/-- `generate_ai_response` of backend.py: build the prompt, call the
generative model (`gen`, an external call that may fail for any reason —
timeout, quota, malformed response), and on any failure catch it locally and
return the deterministic fallback. -/
def generate_ai_response (gen : String → Except String String) (query : String)
    (search_results : List SearchResult) : String :=
  match gen (buildPrompt query search_results) with
  | Except.ok text => text
  | Except.error _ => fallbackResponse search_results.length

/-- The conversion of a Pinecone match in `search_endpoint`:
`metadata=match.metadata or {}` substitutes the empty mapping when the match
carries no metadata. -/
def toSearchResult (m : PMatch) : SearchResult :=
  ⟨m.score, m.id, m.metadata.getD []⟩

/-- The dependencies of the /search endpoint: whether the global Pinecone
handle was initialized at startup, and the three external calls (query
embedding, index query, generation), fallible ones returning `Except`. -/
structure Deps where
  pinecone_index : Bool
  embed_query : String → Except String (List Rat)
  query_pinecone : List Rat → Int → Except String (List PMatch)
  gen : String → Except String String

/-- The observable external calls the endpoint makes, in order. -/
inductive CallEvent where
  | embedCall
  | indexCall
  | genCall
deriving DecidableEq

/-- `search_endpoint` of backend.py, lines 130-178, with an event trace of
the external calls it performs.  Control flow of the source: a 500 when the
global index is unset, a 400 when the stripped query is empty, then embed,
index query, result conversion, generation (whose failures are swallowed by
`generate_ai_response`), and a catch-all turning any raised dependency error
into a 500. -/
def search_endpoint (deps : Deps) (request : SearchRequest) :
    Except HTTPError SearchResponse × List CallEvent :=
  if !deps.pinecone_index then
    (Except.error ⟨500, "Pinecone not initialized"⟩, [])
  else if pyStrip request.query = "" then
    (Except.error ⟨400, "Query cannot be empty"⟩, [])
  else
    match deps.embed_query request.query with
    | Except.error e =>
        (Except.error ⟨500, "Search failed: " ++ e⟩, [CallEvent.embedCall])
    | Except.ok query_vector =>
      match deps.query_pinecone query_vector request.top_k with
      | Except.error e =>
          (Except.error ⟨500, "Search failed: " ++ e⟩,
           [CallEvent.embedCall, CallEvent.indexCall])
      | Except.ok results =>
        let search_results := results.map toSearchResult
        let ai_response := generate_ai_response deps.gen request.query search_results
        (Except.ok ⟨search_results, request.query, search_results.length, ai_response⟩,
         [CallEvent.embedCall, CallEvent.indexCall, CallEvent.genCall])

/-- A concrete match used by the witnesses (its metadata is absent). -/
def demoMatch : PMatch := ⟨"r1", 9/10, none⟩

/-- Endpoint dependencies used by the witnesses: initialized, embedding and
index query succeed, generation succeeds. -/
def okDeps : Deps :=
  ⟨true, fun _ => Except.ok [1], fun _ _ => Except.ok [demoMatch],
   fun _ => Except.ok "answer"⟩

/-- Endpoint dependencies used by the witnesses: initialized, embedding and
index query succeed, generation always fails (for instance on quota). -/
def failGenDeps : Deps :=
  ⟨true, fun _ => Except.ok [1], fun _ _ => Except.ok [demoMatch],
   fun _ => Except.error "quota exceeded"⟩

/-- An encoding function used by concrete instantiations. -/
def encZero : String → List Rat := fun _ => []

/-- The metadata a match contributes to the response: its own mapping, or the
empty mapping when it has none (the metadata-or-empty-dict of the source). -/
def metadataOrEmpty (m : PMatch) : List (String × String) :=
  m.metadata.getD []

/-- Whether the index holds a namespace of the given name. -/
def hasNS (idx : PineconeIndex) (ns : String) : Bool :=
  (lookupNS idx.namespaces ns).isSome

/-- A similarity metric used by concrete instantiations. -/
def simZero : List Rat → List Rat → Rat := fun _ _ => 0

/-- A concrete stored entry used by the witnesses. -/
def entryA : Entry := ⟨"a", [1], [("searchable_text", "Alpha")]⟩

/-- A concrete stored entry used by the witnesses. -/
def entryB : Entry := ⟨"b", [2], []⟩

/-- The index with no namespace at all. -/
def emptyIndex : PineconeIndex := ⟨[]⟩

/-- A concrete two-entry index used by the witnesses. -/
def demoIndex : PineconeIndex := upsert emptyIndex "ns" [entryA, entryB]

/-- Two writes to the same id used by the witnesses: the first vector... -/
def demoE1 : Entry := ⟨"r1", [1], []⟩

/-- ...and the second vector, which must win. -/
def demoE2 : Entry := ⟨"r1", [2], []⟩


/-- Accumulating eligible fragments with a fold is the same as filtering the
field list with the fragment function. -/
theorem foldl_fragment_eq_filterMap {α : Type} (f : α → Option String) :
    ∀ (l : List α) (acc : List String),
      l.foldl (fun parts a =>
        match f a with
        | some part => parts ++ [part]
        | none => parts) acc = acc ++ l.filterMap f := by
  intro l
  induction l with
  | nil => intro acc; simp
  | cons a t ih =>
      intro acc
      cases h : f a with
      | some part => simp [List.foldl_cons, h, ih]
      | none => simp [List.foldl_cons, h, ih]

/-- The fragment computed by the source loop body agrees with the
scalar-or-string-list rule of the specification. -/
theorem fieldFragment_eq_spec (field_name : String) (v : PyValue) :
    fieldFragment field_name v =
      if v.isScalar || v.isStringList then
        some (field_name ++ ": " ++ v.render)
      else
        none := by
  cases v with
  | pyStr s => rfl
  | pyInt n => rfl
  | pyFloat q => rfl
  | pyBool b => rfl
  | pyList l =>
      by_cases h : l.all PyValue.isStr
      · simp [fieldFragment, PyValue.isScalar, PyValue.isStringList, PyValue.render, h]
      · simp [fieldFragment, PyValue.isScalar, PyValue.isStringList, h]
  | pyDict => rfl
  | pyNone => rfl

/-- The per-record normalization of the source equals the rule the
specification states. -/
theorem prepare_text_eq_spec (record : Record) : prepare_text record = normalize_spec record := by
  unfold prepare_text normalize_spec
  rw [foldl_fragment_eq_filterMap (fun fv => fieldFragment fv.1 fv.2) record.fields []]
  simp only [List.nil_append]
  congr 1
  congr 1
  apply List.filterMap_congr
  intro fv _
  exact fieldFragment_eq_spec fv.1 fv.2

/-- The batch normalizer is the element-wise map of the per-record one. -/
theorem prepare_texts_eq_map (records : List Record) :
    prepare_texts_for_encoding records = records.map prepare_text := by
  unfold prepare_texts_for_encoding
  suffices h : ∀ (l : List Record) (acc : List String),
      l.foldl (fun prepared_texts record => prepared_texts ++ [prepare_text record]) acc
        = acc ++ l.map prepare_text by
    simpa using h records []
  intro l
  induction l with
  | nil => intro acc; simp
  | cons r t ih => intro acc; simp [List.foldl_cons, ih]

/-- Claim C2: the normalizer includes a field exactly when its value is a
scalar (string/number/boolean) or an all-strings list, emitting
`"{field_name}: {value}"` with list values joined by `", "`, joining the
included fragments with `". "` and stripping outer whitespace; in particular
the record with fields Name: Ada, Role: Engineer normalizes to
`"Name: Ada. Role: Engineer"`. -/
theorem normalizer_matches_spec_rule (records : List Record) :
    prepare_texts_for_encoding records = records.map normalize_spec ∧
    prepare_text
        (Record.mk "r1" [("Name", PyValue.pyStr "Ada"), ("Role", PyValue.pyStr "Engineer")])
      = "Name: Ada. Role: Engineer" := by
  constructor
  · rw [prepare_texts_eq_map]
    apply List.map_congr_left
    intro r _
    exact prepare_text_eq_spec r
  · rfl

/-- Claim C9: the normalizer is total and produces exactly one text per input
record (the output list has the length of the input list), and a record with
no eligible fields yields the empty string rather than being dropped. -/
theorem normalizer_total_same_length (records : List Record) :
    (prepare_texts_for_encoding records).length = records.length ∧
    ∀ record : Record,
      (∀ fv ∈ record.fields, fieldFragment fv.1 fv.2 = none) →
        prepare_text record = "" := by
  constructor
  · rw [prepare_texts_eq_map, List.length_map]
  · intro record h
    unfold prepare_text
    rw [foldl_fragment_eq_filterMap (fun fv => fieldFragment fv.1 fv.2) record.fields []]
    rw [List.nil_append, List.filterMap_eq_nil_iff.mpr h]
    rfl

/-- Claim C9 witness: a singleton batch whose only record holds a single
ineligible (attachment-like) field yields one output text, the empty string. -/
theorem normalizer_total_same_length_witness :
    (prepare_texts_for_encoding [Record.mk "r2" [("Attachments", PyValue.pyDict)]]).length = 1 ∧
    prepare_text (Record.mk "r2" [("Attachments", PyValue.pyDict)]) = "" :=
  ⟨(normalizer_total_same_length [Record.mk "r2" [("Attachments", PyValue.pyDict)]]).1,
   (normalizer_total_same_length []).2 (Record.mk "r2" [("Attachments", PyValue.pyDict)])
     (by intro fv hv; rw [List.mem_singleton.mp hv]; rfl)⟩


/-- Claim C5 counterexample: two successive query-time embedding calls in one
process perform two model constructions — the loaded instance is not reused,
refuting that the model is loaded at most once per process. -/
theorem embed_query_reloads_model_cx :
    (embed_query encZero ((embed_query encZero ⟨0⟩ "first query").1) "first query").1.loads
      = 2 ∧
    ¬ (embed_query encZero
        ((embed_query encZero ⟨0⟩ "first query").1) "first query").1.loads ≤ 1 := by
  exact ⟨rfl, by decide⟩

/-- Claim C5 as amended: batch ingestion constructs the model once per
`generate_vectors` invocation and reuses it across all texts of the batch
(one `encode` call over the whole list), but the query-time `embed_query`
constructs a fresh model instance on every call, so each repeated query adds
one more model load. -/
theorem model_loads_per_call (encodeBatch : List String → List (List Rat))
    (encode : String → List Rat) (s : EmbedState) (texts : List String) (q : String) :
    (generate_vectors encodeBatch s texts).1.loads = s.loads + 1 ∧
    (generate_vectors encodeBatch s texts).2 = encodeBatch texts ∧
    (embed_query encode s q).1.loads = s.loads + 1 :=
  ⟨rfl, rfl, rfl⟩

/-- Claim C6: `ensure_index` creates the named index with dimension 384 and
metric cosine exactly when no index of that name exists; when one exists it
performs no operation at all — in particular it does not compare the existing
dimension or metric with the requested ones and leaves the store unchanged. -/
theorem ensure_index_create_iff_absent (pc : VectorStore) :
    (has_index pc INDEX_NAME = false →
      ensure_index pc
        = VectorStore.mk (pc.indexes ++ [(INDEX_NAME, IndexSpec.mk 384 "cosine")])) ∧
    (has_index pc INDEX_NAME = true → ensure_index pc = pc) ∧
    (∀ spec : IndexSpec, (INDEX_NAME, spec) ∈ pc.indexes → ensure_index pc = pc) := by
  refine ⟨?_, ?_, ?_⟩
  · intro h
    simp [ensure_index, h, create_index]
  · intro h
    simp [ensure_index, h]
  · intro spec hmem
    have h : has_index pc INDEX_NAME = true := by
      apply List.any_eq_true.mpr
      exact ⟨(INDEX_NAME, spec), hmem, beq_self_eq_true INDEX_NAME⟩
    simp [ensure_index, h]

/-- Claim C6 witness: on an empty store the index is created with dimension
384 and metric cosine; on a store already holding the name with a different
dimension and metric, nothing changes. -/
theorem ensure_index_create_iff_absent_witness :
    ensure_index (VectorStore.mk [])
      = VectorStore.mk [(INDEX_NAME, IndexSpec.mk 384 "cosine")] ∧
    ensure_index (VectorStore.mk [(INDEX_NAME, IndexSpec.mk 768 "dotproduct")])
      = VectorStore.mk [(INDEX_NAME, IndexSpec.mk 768 "dotproduct")] :=
  ⟨(ensure_index_create_iff_absent (VectorStore.mk [])).1 (by decide),
   (ensure_index_create_iff_absent
      (VectorStore.mk [(INDEX_NAME, IndexSpec.mk 768 "dotproduct")])).2.2
     (IndexSpec.mk 768 "dotproduct") (by decide)⟩

/-- The fallback string is never empty (its fixed lead-in alone has length 8). -/
theorem fallback_ne_empty (n : Nat) : fallbackResponse n ≠ "" := by
  intro h
  have hlen : (fallbackResponse n).length = 0 := by rw [h]; rfl
  unfold fallbackResponse at hlen
  rw [String.length_append, String.length_append, String.length_append] at hlen
  have h8 : ("I found " : String).length = 8 := rfl
  omega

/-- Claim C1: when the generative-model call fails for any reason on a served
request, the failure is caught inside the answer synthesizer: the endpoint
still answers successfully with the unmodified ranked results, and the
ai_response field is the non-empty deterministic fallback string, which
contains the count of retrieved results. -/
theorem generation_failure_degrades_gracefully (deps : Deps) (request : SearchRequest)
    (v : List Rat) (ms : List PMatch)
    (hinit : deps.pinecone_index = true)
    (hq : pyStrip request.query ≠ "")
    (hembed : deps.embed_query request.query = Except.ok v)
    (hidx : deps.query_pinecone v request.top_k = Except.ok ms)
    (hgen : ∀ p, ∃ e, deps.gen p = Except.error e) :
    search_endpoint deps request =
      (Except.ok
        (SearchResponse.mk (ms.map toSearchResult) request.query ms.length
          (fallbackResponse ms.length)),
       [CallEvent.embedCall, CallEvent.indexCall, CallEvent.genCall]) ∧
    fallbackResponse ms.length ≠ "" ∧
    (∃ pre post, fallbackResponse ms.length = pre ++ toString ms.length ++ post) := by
  obtain ⟨e, he⟩ := hgen (buildPrompt request.query (ms.map toSearchResult))
  refine ⟨?_, fallback_ne_empty ms.length,
    "I found ",
    " relevant results, but encountered an error generating a detailed response. "
      ++ "Please check the individual results below.", ?_⟩
  · unfold search_endpoint
    simp [hinit, hq, hembed, hidx, generate_ai_response, he]
  · unfold fallbackResponse
    rw [String.append_assoc]

/-- Claim C1 witness: with the index initialized, one retrieved match, and a
generation call that always fails on quota, the endpoint answers successfully
with the match untouched and the fallback string reporting one result. -/
theorem generation_failure_degrades_gracefully_witness :
    search_endpoint failGenDeps (SearchRequest.mk "engineer" 5) =
      (Except.ok
        (SearchResponse.mk ([demoMatch].map toSearchResult) "engineer" [demoMatch].length
          (fallbackResponse [demoMatch].length)),
       [CallEvent.embedCall, CallEvent.indexCall, CallEvent.genCall]) ∧
    fallbackResponse [demoMatch].length ≠ "" ∧
    (∃ pre post, fallbackResponse [demoMatch].length = pre ++ toString [demoMatch].length ++ post) :=
  generation_failure_degrades_gracefully failGenDeps (SearchRequest.mk "engineer" 5)
    [1] [demoMatch] rfl (by decide) rfl rfl (fun p => ⟨"quota exceeded", rfl⟩)

/-- Claim C3: a request whose query is empty or whitespace-only triggers no
external call at all (empty trace), and on a service whose index handle is
initialized it is rejected with the 400 validation error before the
embedding engine or the vector index is invoked. -/
theorem empty_query_rejected_before_embedding (deps : Deps) (request : SearchRequest)
    (hq : pyStrip request.query = "") :
    (search_endpoint deps request).2 = [] ∧
    (deps.pinecone_index = true →
      search_endpoint deps request
        = (Except.error (HTTPError.mk 400 "Query cannot be empty"), [])) := by
  constructor
  · cases h : deps.pinecone_index
    · simp [search_endpoint, h]
    · simp [search_endpoint, h, hq]
  · intro hinit
    simp [search_endpoint, hinit, hq]

/-- Claim C3 witness: the whitespace-only query is rejected with the 400
validation error and the call trace is empty. -/
theorem empty_query_rejected_before_embedding_witness :
    (search_endpoint okDeps (SearchRequest.mk "   " 5)).2 = [] ∧
    (okDeps.pinecone_index = true →
      search_endpoint okDeps (SearchRequest.mk "   " 5)
        = (Except.error (HTTPError.mk 400 "Query cannot be empty"), [])) :=
  empty_query_rejected_before_embedding okDeps (SearchRequest.mk "   " 5) (by decide)

/-- Claim C4 counterexample: a request with top_k = 0 (non-positive) is not
rejected — the endpoint answers successfully, and the embedding call does
occur, so no validation error is raised before embedding. -/
theorem nonpositive_top_k_not_rejected_cx :
    (search_endpoint okDeps (SearchRequest.mk "engineer" 0)).1 =
      Except.ok
        (SearchResponse.mk [toSearchResult demoMatch] "engineer" 1 "answer") ∧
    CallEvent.embedCall ∈ (search_endpoint okDeps (SearchRequest.mk "engineer" 0)).2 :=
  ⟨rfl, by decide⟩

/-- Claim C4 as amended: top_k defaults to 5 when unspecified, but a
non-positive top_k is not validated: the request proceeds — the embedding
call occurs, top_k is passed through unchanged to the index query, and the
request completes successfully when the dependencies do. -/
theorem top_k_default_and_passthrough (deps : Deps) (request : SearchRequest)
    (q0 : String) (v : List Rat) (ms : List PMatch)
    (_hk : request.top_k ≤ 0)
    (hinit : deps.pinecone_index = true)
    (hq : pyStrip request.query ≠ "")
    (hembed : deps.embed_query request.query = Except.ok v)
    (hidx : deps.query_pinecone v request.top_k = Except.ok ms) :
    ({ query := q0 } : SearchRequest).top_k = 5 ∧
    CallEvent.embedCall ∈ (search_endpoint deps request).2 ∧
    (search_endpoint deps request).1 =
      Except.ok
        (SearchResponse.mk (ms.map toSearchResult) request.query ms.length
          (generate_ai_response deps.gen request.query (ms.map toSearchResult))) := by
  refine ⟨rfl, ?_, ?_⟩
  · simp [search_endpoint, hinit, hq, hembed, hidx]
  · simp [search_endpoint, hinit, hq, hembed, hidx]

/-- Claim C4 witness: at the concrete request with query engineer and
top_k = 0 the default is 5, the embedding call occurs, and the request
completes successfully. -/
theorem top_k_default_and_passthrough_witness :
    ({ query := "engineer" } : SearchRequest).top_k = 5 ∧
    CallEvent.embedCall ∈ (search_endpoint okDeps (SearchRequest.mk "engineer" 0)).2 ∧
    (search_endpoint okDeps (SearchRequest.mk "engineer" 0)).1 =
      Except.ok
        (SearchResponse.mk ([demoMatch].map toSearchResult) "engineer" [demoMatch].length
          (generate_ai_response okDeps.gen "engineer" ([demoMatch].map toSearchResult))) :=
  top_k_default_and_passthrough okDeps (SearchRequest.mk "engineer" 0) "engineer"
    [1] [demoMatch] (by decide) rfl (by decide) rfl rfl


/-- Claim C10: on a served request every returned result carries a metadata
mapping obtained from the match by substituting the empty mapping when the
match has none (so no result of the response has a null metadata field), and
total_results equals the length of the results list. -/
theorem search_results_metadata_total (deps : Deps) (request : SearchRequest)
    (v : List Rat) (ms : List PMatch)
    (hinit : deps.pinecone_index = true)
    (hq : pyStrip request.query ≠ "")
    (hembed : deps.embed_query request.query = Except.ok v)
    (hidx : deps.query_pinecone v request.top_k = Except.ok ms) :
    (search_endpoint deps request).1 =
      Except.ok
        (SearchResponse.mk (ms.map toSearchResult) request.query
          (ms.map toSearchResult).length
          (generate_ai_response deps.gen request.query (ms.map toSearchResult))) ∧
    (ms.map toSearchResult).length = ms.length ∧
    (ms.map toSearchResult).map SearchResult.metadata = ms.map metadataOrEmpty := by
  refine ⟨?_, by rw [List.length_map], ?_⟩
  · simp [search_endpoint, hinit, hq, hembed, hidx]
  · rw [List.map_map]
    apply List.map_congr_left
    intro m _
    rfl

/-- Claim C10 witness: the single retrieved match carries no metadata, and the
converted result of the response carries the empty mapping instead. -/
theorem search_results_metadata_total_witness :
    (search_endpoint okDeps (SearchRequest.mk "engineer" 5)).1 =
      Except.ok
        (SearchResponse.mk ([demoMatch].map toSearchResult) "engineer"
          ([demoMatch].map toSearchResult).length
          (generate_ai_response okDeps.gen "engineer" ([demoMatch].map toSearchResult))) ∧
    ([demoMatch].map toSearchResult).length = [demoMatch].length ∧
    ([demoMatch].map toSearchResult).map SearchResult.metadata = [demoMatch].map metadataOrEmpty :=
  search_results_metadata_total okDeps (SearchRequest.mk "engineer" 5)
    [1] [demoMatch] rfl (by decide) rfl rfl

/-- Claim C8: a query with positive top_k returns results whose scores are
non-increasing across the returned order, at most top_k of them, and an
empty or altogether absent namespace yields the empty sequence, not an
error. -/
theorem query_ranked_bounded_empty (sim : List Rat → List Rat → Rat)
    (idx : PineconeIndex) (ns : String) (vector : List Rat) (top_k : Nat)
    (hk : 0 < top_k) :
    (query_index sim idx ns vector top_k).Pairwise byScoreDesc ∧
    (query_index sim idx ns vector top_k).length ≤ top_k ∧
    ((getNamespace idx ns).entries = [] → query_index sim idx ns vector top_k = []) ∧
    (hasNS idx ns = false → query_index sim idx ns vector top_k = []) := by
  have hlen : 0 < top_k := hk
  refine ⟨?_, ?_, ?_, ?_⟩
  · exact List.Pairwise.sublist (List.take_sublist _ _)
      (List.sorted_insertionSort byScoreDesc _)
  · rw [query_index]
    rw [List.length_take]
    exact min_le_left _ _
  · intro h
    simp [query_index, h]
  · intro h
    have hnone : lookupNS idx.namespaces ns = none := by
      cases hl : lookupNS idx.namespaces ns with
      | none => rfl
      | some c => rw [hasNS, hl] at h; cases h
    simp [query_index, getNamespace, hnone, emptyNS, NSContent.entries]

/-- Claim C8 witness: on the concrete two-entry index with the zero metric
and top_k three, the claim instance holds. -/
theorem query_ranked_bounded_empty_witness :
    (query_index simZero demoIndex "ns" [1] 3).Pairwise byScoreDesc ∧
    (query_index simZero demoIndex "ns" [1] 3).length ≤ 3 ∧
    ((getNamespace demoIndex "ns").entries = [] → query_index simZero demoIndex "ns" [1] 3 = []) ∧
    (hasNS demoIndex "ns" = false → query_index simZero demoIndex "ns" [1] 3 = []) :=
  query_ranked_bounded_empty simZero demoIndex "ns" [1] 3 (by decide)

/-- The stored value at an id after a batch upsert is the fold of the
per-entry overwrites over the batch. -/
theorem upsertBatch_val (b : List Entry) : ∀ (c : NSContent) (i : String),
    (upsertBatch c b).val i
      = b.foldl (fun acc e => if i = e.id then some e else acc) (c.val i) := by
  induction b with
  | nil => intro c i; rfl
  | cons x t ih =>
      intro c i
      show (upsertBatch (upsertEntry c x) t).val i = _
      rw [ih]
      rfl

/-- Replaying the per-id overwrite fold a second time changes nothing. -/
theorem foldl_step_idem (i : String) (b : List Entry) : ∀ (a : Option Entry),
    b.foldl (fun acc e => if i = e.id then some e else acc)
        (b.foldl (fun acc e => if i = e.id then some e else acc) a)
      = b.foldl (fun acc e => if i = e.id then some e else acc) a := by
  induction b using List.reverseRecOn with
  | nil => intro a; rfl
  | append_singleton t x ih =>
      intro a
      by_cases hx : i = x.id
      · simp [List.foldl_append, hx]
      · simp only [List.foldl_append, List.foldl_cons, List.foldl_nil, if_neg hx]
        exact ih a

/-- Upserting an entry whose id is already stored does not change the keys. -/
theorem keys_upsertEntry_of_mem (c : NSContent) (e : Entry) (h : e.id ∈ c.keys) :
    (upsertEntry c e).keys = c.keys := by
  simp [upsertEntry, h]

/-- Upserting an entry keeps every previously stored key. -/
theorem mem_keys_upsertEntry (c : NSContent) (e : Entry) (i : String) (h : i ∈ c.keys) :
    i ∈ (upsertEntry c e).keys := by
  by_cases hm : e.id ∈ c.keys
  · simpa [upsertEntry, hm] using h
  · simp only [upsertEntry, if_neg hm]
    exact List.mem_append_left _ h

/-- Upserting an entry stores its id. -/
theorem id_mem_keys_upsertEntry (c : NSContent) (e : Entry) : e.id ∈ (upsertEntry c e).keys := by
  by_cases hm : e.id ∈ c.keys
  · simp [upsertEntry, hm]
  · simp [upsertEntry, hm]

/-- A batch upsert keeps every previously stored key. -/
theorem mem_keys_upsertBatch (b : List Entry) : ∀ (c : NSContent) (i : String),
    i ∈ c.keys → i ∈ (upsertBatch c b).keys := by
  induction b with
  | nil => intro c i h; exact h
  | cons x t ih =>
      intro c i h
      exact ih (upsertEntry c x) i (mem_keys_upsertEntry c x i h)

/-- After a batch upsert, the id of every batch entry is stored. -/
theorem batch_id_mem_keys (b : List Entry) : ∀ (c : NSContent) (x : Entry),
    x ∈ b → x.id ∈ (upsertBatch c b).keys := by
  induction b with
  | nil => intro c x h; cases h
  | cons y t ih =>
      intro c x h
      rcases List.mem_cons.mp h with rfl | ht
      · exact mem_keys_upsertBatch t (upsertEntry c x) x.id (id_mem_keys_upsertEntry c x)
      · exact ih (upsertEntry c y) x ht

/-- A batch upsert whose every id is already stored does not change the keys. -/
theorem keys_upsertBatch_of_all_mem (b : List Entry) : ∀ (c : NSContent),
    (∀ x ∈ b, x.id ∈ c.keys) → (upsertBatch c b).keys = c.keys := by
  induction b with
  | nil => intro c _; rfl
  | cons x t ih =>
      intro c h
      have hx : x.id ∈ c.keys := h x (List.mem_cons_self x t)
      have hkeys : (upsertEntry c x).keys = c.keys := keys_upsertEntry_of_mem c x hx
      have ht : ∀ y ∈ t, y.id ∈ (upsertEntry c x).keys := by
        intro y hy
        rw [hkeys]
        exact h y (List.mem_cons_of_mem x hy)
      calc (upsertBatch (upsertEntry c x) t).keys
          = (upsertEntry c x).keys := ih (upsertEntry c x) ht
        _ = c.keys := hkeys

/-- Replaying a whole batch upsert is the identity on the namespace content. -/
theorem upsertBatch_idem (c : NSContent) (b : List Entry) :
    upsertBatch (upsertBatch c b) b = upsertBatch c b := by
  have hk : (upsertBatch (upsertBatch c b) b).keys = (upsertBatch c b).keys :=
    keys_upsertBatch_of_all_mem b (upsertBatch c b) (fun x hx => batch_id_mem_keys b c x hx)
  have hv : (upsertBatch (upsertBatch c b) b).val = (upsertBatch c b).val := by
    funext i
    rw [upsertBatch_val b (upsertBatch c b) i, upsertBatch_val b c i]
    exact foldl_step_idem i b (c.val i)
  exact NSContent.ext hk hv


/-- Reading a namespace right after writing it yields the written content. -/
theorem lookupNS_setNSList (ns : String) (c : NSContent) :
    ∀ l : List (String × NSContent), lookupNS (setNSList l ns c) ns = some c := by
  intro l
  induction l with
  | nil => simp [setNSList, lookupNS]
  | cons p t ih =>
      by_cases hp : p.1 = ns
      · simp [setNSList, lookupNS, hp]
      · simp [setNSList, lookupNS, hp, ih]

/-- Two successive writes to the same namespace collapse to the second. -/
theorem setNSList_setNSList (ns : String) (c c2 : NSContent) :
    ∀ l : List (String × NSContent),
      setNSList (setNSList l ns c) ns c2 = setNSList l ns c2 := by
  intro l
  induction l with
  | nil => simp [setNSList]
  | cons p t ih =>
      by_cases hp : p.1 = ns
      · simp [setNSList, hp]
      · simp [setNSList, hp, ih]

/-- Writing contents of equal size to the same namespace yields partition
lists of equal total size. -/
theorem sum_len_setNSList (ns : String) (c c2 : NSContent)
    (hlen : c.keys.length = c2.keys.length) :
    ∀ l : List (String × NSContent),
      ((setNSList l ns c).map (fun p => p.2.keys.length)).sum
        = ((setNSList l ns c2).map (fun p => p.2.keys.length)).sum := by
  intro l
  induction l with
  | nil => simp [setNSList, hlen]
  | cons p t ih =>
      by_cases hp : p.1 = ns
      · simp [setNSList, hp, hlen]
      · simp [setNSList, hp]
        exact ih

/-- Reading a namespace right after writing it, at the index level. -/
theorem getNamespace_setNamespace (idx : PineconeIndex) (ns : String) (c : NSContent) :
    getNamespace (setNamespace idx ns c) ns = c := by
  simp [getNamespace, setNamespace, lookupNS_setNSList]

/-- Two successive writes to the same namespace, at the index level. -/
theorem setNamespace_setNamespace (idx : PineconeIndex) (ns : String) (c c2 : NSContent) :
    setNamespace (setNamespace idx ns c) ns c2 = setNamespace idx ns c2 := by
  simp [setNamespace, setNSList_setNSList]

/-- Writing contents of equal size to the same namespace preserves the total
vector count. -/
theorem total_setNamespace_congr (idx : PineconeIndex) (ns : String) (c c2 : NSContent)
    (hlen : c.keys.length = c2.keys.length) :
    total_vector_count (setNamespace idx ns c) = total_vector_count (setNamespace idx ns c2) := by
  simp only [total_vector_count, setNamespace]
  exact sum_len_setNSList ns c c2 hlen idx.namespaces

/-- Claim C7: upserting an entry twice (same id, possibly different vectors)
into a namespace leaves exactly one stored entry under that id, holding the
second write (last write wins); the total vector count does not increase on
the second upsert; and replaying a whole batch upsert is the identity, so a
full-batch retry is idempotent. -/
theorem upsert_twice_last_write_wins (idx : PineconeIndex) (ns : String)
    (e1 e2 : Entry) (batch : List Entry)
    (hid : e1.id = e2.id)
    (hnodup : (getNamespace idx ns).keys.Nodup) :
    (getNamespace (upsert (upsert idx ns [e1]) ns [e2]) ns).val e2.id = some e2 ∧
    (getNamespace (upsert (upsert idx ns [e1]) ns [e2]) ns).keys.count e2.id = 1 ∧
    total_vector_count (upsert (upsert idx ns [e1]) ns [e2])
      = total_vector_count (upsert idx ns [e1]) ∧
    upsert (upsert idx ns batch) ns batch = upsert idx ns batch := by
  have h21 : upsert (upsert idx ns [e1]) ns [e2]
      = setNamespace idx ns (upsertEntry (upsertEntry (getNamespace idx ns) e1) e2) := by
    unfold upsert
    rw [getNamespace_setNamespace, setNamespace_setNamespace]
    rfl
  have hg2 : getNamespace (upsert (upsert idx ns [e1]) ns [e2]) ns
      = upsertEntry (upsertEntry (getNamespace idx ns) e1) e2 := by
    rw [h21, getNamespace_setNamespace]
  have hmem : e2.id ∈ (upsertEntry (getNamespace idx ns) e1).keys :=
    hid ▸ id_mem_keys_upsertEntry (getNamespace idx ns) e1
  have hkeys2 : (upsertEntry (upsertEntry (getNamespace idx ns) e1) e2).keys
      = (upsertEntry (getNamespace idx ns) e1).keys :=
    keys_upsertEntry_of_mem _ e2 hmem
  refine ⟨?_, ?_, ?_, ?_⟩
  · rw [hg2]
    simp [upsertEntry]
  · rw [hg2, hkeys2]
    by_cases h0 : e1.id ∈ (getNamespace idx ns).keys
    · rw [keys_upsertEntry_of_mem _ e1 h0, ← hid]
      exact List.count_eq_one_of_mem hnodup h0
    · have hk1 : (upsertEntry (getNamespace idx ns) e1).keys
          = (getNamespace idx ns).keys ++ [e1.id] := by
        simp [upsertEntry, h0]
      rw [hk1, ← hid, List.count_append, List.count_eq_zero.mpr h0]
      simp
  · rw [h21]
    exact total_setNamespace_congr idx ns _ _ (by rw [hkeys2]; rfl)
  · unfold upsert
    rw [getNamespace_setNamespace, setNamespace_setNamespace, upsertBatch_idem]

/-- Claim C7 witness: on an initially empty index, two writes to the id r1
leave exactly one entry with that id, holding the second vector; the count is
unchanged by the second write; and retrying a one-entry batch is the
identity. -/
theorem upsert_twice_last_write_wins_witness :
    (getNamespace (upsert (upsert emptyIndex "airtable-namespace" [demoE1])
        "airtable-namespace" [demoE2]) "airtable-namespace").val demoE2.id = some demoE2 ∧
    (getNamespace (upsert (upsert emptyIndex "airtable-namespace" [demoE1])
        "airtable-namespace" [demoE2]) "airtable-namespace").keys.count demoE2.id = 1 ∧
    total_vector_count (upsert (upsert emptyIndex "airtable-namespace" [demoE1])
        "airtable-namespace" [demoE2])
      = total_vector_count (upsert emptyIndex "airtable-namespace" [demoE1]) ∧
    upsert (upsert emptyIndex "airtable-namespace" [demoE1]) "airtable-namespace" [demoE1]
      = upsert emptyIndex "airtable-namespace" [demoE1] :=
  upsert_twice_last_write_wins emptyIndex "airtable-namespace" demoE1 demoE2 [demoE1]
    rfl (by decide)
